import Mathlib

/-!
Verification development for the `agent` package of `trogui/go-agent-sdk`
(file `agent/agent.go`).

The embedding is a shallow, sequential model of the package:

* The remote completion endpoint (`callAPI`) is abstracted as a *client
  script* `Nat → Except String apiResponse`, mapping the index of the
  API call (0-based, in call order) to either a transport/decode error
  or a decoded response.  The wire-level request building
  (tool-schema serialization, temperature, auth header) has no influence
  on the control flow modelled here and lives behind this abstraction.
* Go's `json.Marshal` on a tool result of type `any` is modelled by
  `GoValue`: a value either carries its JSON encoding or is unencodable
  (e.g. contains a channel), in which case marshalling fails with an
  error message.
* The interactive `Session` is modelled as an explicit state record;
  channels become a closed-flag plus an event log, the cancellable
  context becomes a `cancelled` flag, and the background goroutine of
  `runTurn` is modelled by the caller invoking `Session.runTurn`
  after `Session.Send` (sequential interleaving).
* Go `int` usage counters are modelled as `Int` (no overflow concerns
  arise in the claims).
-/

/-- Token usage counters (`Usage` in agent.go). -/
structure Usage where
  promptTokens : Int
  completionTokens : Int
  totalTokens : Int
deriving DecidableEq

instance : Add Usage :=
  ⟨fun a b => ⟨a.promptTokens + b.promptTokens, a.completionTokens + b.completionTokens,
    a.totalTokens + b.totalTokens⟩⟩

theorem Usage.add_def (a b : Usage) :
    a + b = ⟨a.promptTokens + b.promptTokens, a.completionTokens + b.completionTokens,
      a.totalTokens + b.totalTokens⟩ := rfl

/-- The `function` object inside a tool call (`apiFunctionCall` in agent.go). -/
structure apiFunctionCall where
  name : String
  arguments : String
deriving DecidableEq

/-- A tool-call request issued by the model (`apiToolCall` in agent.go; the
constant `Type` field, never read by the loop, is omitted). -/
structure apiToolCall where
  id : String
  function : apiFunctionCall
deriving DecidableEq

/-- The message inside a response choice (`apiMessage` in agent.go; the `Role`
and `ToolCallID` fields are never read on responses and are omitted). -/
structure apiMessage where
  content : String
  tool_calls : List apiToolCall
deriving DecidableEq

/-- One response choice (`apiChoice` in agent.go; the unused `Index` field is
omitted). -/
structure apiChoice where
  message : apiMessage
  finish_reason : String
deriving DecidableEq

/-- A decoded completion response (`apiResponse` in agent.go; the unused `ID`
field is omitted). -/
structure apiResponse where
  choices : List apiChoice
  usage : Usage
deriving DecidableEq

/-- A conversation message.  agent.go builds messages as untyped maps; the
four shapes it actually constructs are: the system/user/final-assistant
messages (role + content), the assistant message carrying `tool_calls`, and
the tool-role result message (content + `tool_call_id`). -/
inductive Message where
  | system (content : String)
  | user (content : String)
  | assistant (content : String)
  | assistantToolCalls (tool_calls : List apiToolCall)
  | tool (content : String) (tool_call_id : String)
deriving DecidableEq

/-- A Go value of type `any` returned by a tool handler, seen through
`json.Marshal`: it either has a JSON encoding or marshalling fails with an
error message. -/
inductive GoValue where
  | jsonable (encoding : String)
  | unencodable (errMsg : String)

/-- Model of Go's `json.Marshal` applied to a handler result. -/
def jsonMarshal : GoValue → Except String String
  | .jsonable s => .ok s
  | .unencodable e => .error e

/-- A tool handler (`ToolHandler` in agent.go): raw JSON arguments in, a
result value or an error out. -/
def ToolHandler : Type := String → Except String GoValue

/-- A registered tool (`Tool` in agent.go).  The `Parameters`/`Required`
schema metadata and the description are only serialized into the wire
request, which is abstracted into the client script, so only the fields
that drive the loop are kept. -/
structure Tool where
  name : String
  handler : ToolHandler

/-- Agent configuration (`Config` in agent.go).  `Temperature` (a float only
forwarded to the wire request) and the credential/URL strings only feed
`callAPI`, abstracted away; the fields checked by `New` are kept. -/
structure Config where
  apiKey : String
  apiURL : String
  model : String
  systemPrompt : String
  maxLoops : Nat

/-- The agent (`Agent` in agent.go).  The Go `map[string]*Tool` registry is
modelled as an association list with insert-or-replace semantics. -/
structure Agent where
  config : Config
  tools : List Tool

/-- Insert-or-replace a tool by name (the Go map assignment in
`RegisterTool`): the last registration for a given name wins. -/
def insertTool : List Tool → Tool → List Tool
  | [], t => [t]
  | u :: rest, t => if u.name = t.name then t :: rest else u :: insertTool rest t

/-- Name lookup in the registry (the Go map read in `executeTool`). -/
def lookupTool : List Tool → String → Option Tool
  | [], _ => none
  | t :: rest, n => if t.name = n then some t else lookupTool rest n

/-- `New` (agent.go): validates the configuration and defaults `MaxLoops`
to 20 when it is zero. -/
def New (config : Config) : Except String Agent :=
  if config.apiURL = "" then .error "API URL is required"
  else if config.apiKey = "" then .error "API key is required"
  else if config.model = "" then .error "model is required"
  else if config.systemPrompt = "" then .error "system prompt is required"
  else
    let config := if config.maxLoops = 0 then { config with maxLoops := 20 } else config
    .ok { config := config, tools := [] }

/-- `Agent.RegisterTool` (agent.go). -/
def Agent.RegisterTool (a : Agent) (tool : Tool) : Agent :=
  { a with tools := insertTool a.tools tool }

/-- `Agent.executeTool` (agent.go): fails when the tool is not registered,
otherwise invokes the handler. -/
def Agent.executeTool (a : Agent) (name : String) (args : String) : Except String GoValue :=
  match lookupTool a.tools name with
  | none => .error ("tool not found: " ++ name)
  | some tool => tool.handler args

/-- The content string produced for one tool call in the loop bodies of both
`Run` and `runTurn` (agent.go): a handler-level error is folded into the
textual payload `{"error": "<message>"}`; a successful result is marshalled,
and a marshalling failure is fatal (`Except.error`). -/
def toolContent (a : Agent) (toolCall : apiToolCall) : Except String String :=
  match a.executeTool toolCall.function.name toolCall.function.arguments with
  | .error e => .ok ("\x7b\"error\": \"" ++ e ++ "\"\x7d")
  | .ok result =>
    match jsonMarshal result with
    | .error e => .error ("error encoding tool result: " ++ e)
    | .ok s => .ok s

/-- The tool-execution inner loop of `Run` (agent.go): returns the tool-role
messages appended (in request order), and `some fatalMsg` when a
marshalling failure aborts the run, in which case the messages of the calls
already processed are kept and no message is appended for the failing call
or any later one. -/
def processToolCalls (a : Agent) : List apiToolCall → List Message × Option String
  | [] => ([], none)
  | toolCall :: rest =>
    match toolContent a toolCall with
    | .error e => ([], some e)
    | .ok content =>
      let tail := processToolCalls a rest
      (Message.tool content toolCall.id :: tail.1, tail.2)

/-- The final answer of a run (`Response` in agent.go). -/
structure Response where
  content : String
  usage : Usage
  finishReason : String
  loopCount : Nat
deriving DecidableEq

/-- How a one-shot run ends: the error returns of `Run` (agent.go), the
unguarded `resp.Choices[0]` access on an empty choice list (a runtime panic
in Go), and normal completion. -/
inductive RunOutcome where
  | limitExceeded (maxLoops : Nat)
  | apiError (msg : String)
  | panicEmptyChoices
  | encodingError (msg : String)
  | noResponse
  | ok (resp : Response)
deriving DecidableEq

/-- Result of a one-shot run: the outcome, the final value of the local
`messages` slice, and the number of API calls performed (instrumentation:
in Go each `callAPI` invocation counts one). -/
structure RunResult where
  outcome : RunOutcome
  messages : List Message
  apiCalls : Nat
deriving DecidableEq

/-- The `for reason != "stop"` loop of `Agent.Run` (agent.go), one recursive
call per iteration.  `loopCount` is the value of the Go `loopCount` variable
at the top of the iteration (before the increment), `apiCalls` the number of
client calls already made.  The iteration increments the counter, fails with
the limit condition before calling the client when the counter exceeds the
ceiling, reads the finish reason of the first choice (a panic when the
choice list is empty), accumulates usage, runs the tool branch when the
reason is `"tool_calls"`, and exits through the post-loop code when the
reason is `"stop"`. -/
def runLoop (a : Agent) (client : Nat → Except String apiResponse)
    (messages : List Message) (loopCount : Nat) (totalUsage : Usage)
    (apiCalls : Nat) : RunResult :=
  if _h : loopCount + 1 > a.config.maxLoops then
    ⟨.limitExceeded a.config.maxLoops, messages, apiCalls⟩
  else
    match client apiCalls with
    | .error e => ⟨.apiError ("API call error: " ++ e), messages, apiCalls + 1⟩
    | .ok resp =>
      match resp.choices with
      | [] => ⟨.panicEmptyChoices, messages, apiCalls + 1⟩
      | choice :: _ =>
        let totalUsage := totalUsage + resp.usage
        if choice.finish_reason = "tool_calls" then
          let messages := messages ++ [Message.assistantToolCalls choice.message.tool_calls]
          let messages := messages ++ (processToolCalls a choice.message.tool_calls).1
          match (processToolCalls a choice.message.tool_calls).2 with
          | some e => ⟨.encodingError e, messages, apiCalls + 1⟩
          | none => runLoop a client messages (loopCount + 1) totalUsage (apiCalls + 1)
        else if choice.finish_reason = "stop" then
          -- post-loop code of Run: `if len(lastResponse.Choices) == 0`
          if resp.choices.length = 0 then
            ⟨.noResponse, messages, apiCalls + 1⟩
          else
            ⟨.ok ⟨choice.message.content, totalUsage, choice.finish_reason, loopCount + 1⟩,
              messages, apiCalls + 1⟩
        else
          runLoop a client messages (loopCount + 1) totalUsage (apiCalls + 1)
termination_by a.config.maxLoops + 1 - loopCount
decreasing_by all_goals omega

/-- `Agent.Run` (agent.go): seeds the system and user messages and enters
the loop with all counters at zero. -/
def Agent.Run (a : Agent) (client : Nat → Except String apiResponse)
    (prompt : String) : RunResult :=
  runLoop a client
    [Message.system a.config.systemPrompt, Message.user prompt] 0 ⟨0, 0, 0⟩ 0

/-- Event types emitted by a session (`EventType` in agent.go). -/
inductive EventType where
  | iterationStart
  | toolCall
  | toolResult
  | needInput
  | turnComplete
  | error
deriving DecidableEq

/-- An event emitted by a session (`AgentEvent` in agent.go; the `Data`
field, of type `any` in Go, carries only strings in the core and is
modelled as a `String`, empty when unset). -/
structure AgentEvent where
  type : EventType
  content : String
  data : String
  iteration : Nat
deriving DecidableEq

/-- The interactive session (`Session` in agent.go).  The two channels are
modelled by closed-flags plus an ordered event log; the cancellable context
by the `cancelled` flag. -/
structure Session where
  agent : Agent
  messages : List Message
  closed : Bool
  cancelled : Bool
  eventsClosed : Bool
  inputClosed : Bool
  totalUsage : Usage
  loopCount : Nat
  events : List AgentEvent

/-- `Agent.NewSession` (agent.go): open channels, fresh context, history
seeded with the single system message, counters at zero. -/
def Agent.NewSession (a : Agent) : Session :=
  { agent := a
    messages := [Message.system a.config.systemPrompt]
    closed := false
    cancelled := false
    eventsClosed := false
    inputClosed := false
    totalUsage := ⟨0, 0, 0⟩
    loopCount := 0
    events := [] }

/-- `Session.sendEvent` (agent.go): the `select` either delivers the event
or, when the session context is cancelled, abandons it silently. -/
def Session.sendEvent (s : Session) (event : AgentEvent) : Session :=
  if s.cancelled then s else { s with events := s.events ++ [event] }

/-- Deliver a list of events in order through `Session.sendEvent`. -/
def Session.sendEvents (s : Session) (events : List AgentEvent) : Session :=
  events.foldl Session.sendEvent s

/-- `Session.Send` (agent.go): fails when the session is closed, otherwise
appends the user message.  The `go s.runTurn()` launch is modelled by the
caller invoking `Session.runTurn` on the returned session. -/
def Session.Send (s : Session) (message : String) : Except String Session :=
  if s.closed then .error "session is closed"
  else .ok { s with messages := s.messages ++ [Message.user message] }

/-- Outcome of `Session.SendInput` (agent.go): the closed-session error, a
successful delivery into the input channel, the cancellation error from the
`select`, or blocking forever when no tool is reading and the context is
live. -/
inductive SendInputResult where
  | delivered
  | errClosed
  | errCancelled
  | blocked
deriving DecidableEq

/-- `Session.SendInput` (agent.go).  `readerReady` abstracts whether a tool
handler is currently receiving on the input channel. -/
def Session.SendInput (s : Session) (readerReady : Bool) : SendInputResult :=
  if s.closed then .errClosed
  else if readerReady then .delivered
  else if s.cancelled then .errCancelled
  else .blocked

/-- `Session.Close` (agent.go): a no-op when already closed; otherwise marks
the session closed, cancels the context and closes both channels.  `none`
models the Go panic that closing an already-closed channel would raise. -/
def Session.Close (s : Session) : Option Session :=
  if s.closed then some s
  else if s.eventsClosed then none
  else if s.inputClosed then none
  else some { s with closed := true, cancelled := true, eventsClosed := true, inputClosed := true }

/-- `Session.GetHistory` (agent.go): a snapshot copy of the history. -/
def Session.GetHistory (s : Session) : List Message := s.messages

/-- The tool-execution inner loop of `runTurn` (agent.go): like
`processToolCalls` but additionally produces, in order, the `ToolCall` and
`ToolResult` (or terminal `Error`) events of the iteration `iter`. -/
def processToolCallsS (a : Agent) (iter : Nat) :
    List apiToolCall → List AgentEvent × List Message × Option String
  | [] => ([], [], none)
  | toolCall :: rest =>
    let evCall : AgentEvent :=
      ⟨.toolCall, toolCall.function.name, toolCall.function.arguments, iter⟩
    match a.executeTool toolCall.function.name toolCall.function.arguments with
    | .error e =>
      let content := "\x7b\"error\": \"" ++ e ++ "\"\x7d"
      let tail := processToolCallsS a iter rest
      (evCall :: ⟨.toolResult, content, toolCall.function.name, iter⟩ :: tail.1,
        Message.tool content toolCall.id :: tail.2.1, tail.2.2)
    | .ok result =>
      match jsonMarshal result with
      | .error e =>
        ([evCall, ⟨.error, "error encoding tool result: " ++ e, "", iter⟩],
          [], some ("error encoding tool result: " ++ e))
      | .ok content =>
        let tail := processToolCallsS a iter rest
        (evCall :: ⟨.toolResult, content, toolCall.function.name, iter⟩ :: tail.1,
          Message.tool content toolCall.id :: tail.2.1, tail.2.2)

/-- How a session turn ends (`runTurn` in agent.go): early returns emit a
terminal `Error` event, completion emits `TurnComplete`. -/
inductive TurnOutcome where
  | limitExceeded
  | apiError (msg : String)
  | panicEmptyChoices
  | encodingError (msg : String)
  | noResponse
  | complete (content : String)
deriving DecidableEq

/-- The `for reason != "stop"` loop of `Session.runTurn` (agent.go), one
recursive call per iteration.  `loopCount` is the shared session counter
`s.loopCount` at the top of the iteration; the session threaded through
carries the event log, the accumulated usage and (kept in sync) the
counter.  Returns the final session, the turn outcome, and the number of
API calls the turn performed. -/
def runTurnLoop (a : Agent) (client : Nat → Except String apiResponse)
    (s : Session) (messages : List Message) (loopCount : Nat)
    (apiCalls : Nat) : Session × TurnOutcome × Nat :=
  if _h : loopCount + 1 > a.config.maxLoops then
    (Session.sendEvent { s with loopCount := loopCount + 1 }
      ⟨.error, "maximum loop iterations (" ++ toString a.config.maxLoops ++ ") exceeded",
        "", loopCount + 1⟩,
      .limitExceeded, apiCalls)
  else
    let s := Session.sendEvent { s with loopCount := loopCount + 1 }
      ⟨.iterationStart, "Starting iteration " ++ toString (loopCount + 1), "", loopCount + 1⟩
    match client apiCalls with
    | .error e =>
      (Session.sendEvent s ⟨.error, "API call error: " ++ e, "", loopCount + 1⟩,
        .apiError e, apiCalls + 1)
    | .ok resp =>
      match resp.choices with
      | [] => (s, .panicEmptyChoices, apiCalls + 1)
      | choice :: _ =>
        let s := { s with totalUsage := s.totalUsage + resp.usage }
        if choice.finish_reason = "tool_calls" then
          let messages := messages ++ [Message.assistantToolCalls choice.message.tool_calls]
          let run := processToolCallsS a (loopCount + 1) choice.message.tool_calls
          let s := Session.sendEvents s run.1
          let messages := messages ++ run.2.1
          match run.2.2 with
          | some e => (s, .encodingError e, apiCalls + 1)
          | none => runTurnLoop a client s messages (loopCount + 1) (apiCalls + 1)
        else if choice.finish_reason = "stop" then
          -- post-loop code of runTurn: `lastResponse == nil || len(...) == 0`
          if resp.choices.length = 0 then
            (Session.sendEvent s ⟨.error, "no response from API", "", loopCount + 1⟩,
              .noResponse, apiCalls + 1)
          else
            let messages := messages ++ [Message.assistant choice.message.content]
            let s := { s with messages := messages }
            (Session.sendEvent s ⟨.turnComplete, choice.message.content, "", loopCount + 1⟩,
              .complete choice.message.content, apiCalls + 1)
        else
          runTurnLoop a client s messages (loopCount + 1) (apiCalls + 1)
termination_by a.config.maxLoops + 1 - loopCount
decreasing_by all_goals omega

/-- `Session.runTurn` (agent.go): snapshots the history under the lock and
enters the shared loop with the session's running iteration counter. -/
def Session.runTurn (s : Session) (client : Nat → Except String apiResponse) :
    Session × TurnOutcome × Nat :=
  runTurnLoop s.agent client s s.messages s.loopCount 0

/-! ### Helper lemmas about the embedded definitions -/

theorem Usage.zero_add (u : Usage) : (⟨0, 0, 0⟩ : Usage) + u = u := by
  cases u; simp [Usage.add_def]

theorem Usage.add_zero (u : Usage) : u + (⟨0, 0, 0⟩ : Usage) = u := by
  cases u; simp [Usage.add_def]

theorem Usage.add_assoc (a b c : Usage) : a + b + c = a + (b + c) := by
  simp [Usage.add_def, Int.add_assoc]

theorem Session.sendEvent_loopCount (s : Session) (e : AgentEvent) :
    (s.sendEvent e).loopCount = s.loopCount := by
  unfold Session.sendEvent; split <;> rfl

theorem processToolCalls_length (a : Agent) (calls : List apiToolCall)
    (h : (processToolCalls a calls).2 = none) :
    (processToolCalls a calls).1.length = calls.length := by
  induction calls with
  | nil => simp [processToolCalls]
  | cons tc rest ih =>
    unfold processToolCalls at h ⊢
    cases htc : toolContent a tc with
    | error e => rw [htc] at h; simp at h
    | ok content =>
      rw [htc] at h
      simp at h ⊢
      exact ih h

theorem processToolCalls_get (a : Agent) :
    ∀ (calls : List apiToolCall) (j : Nat) (tc : apiToolCall),
      (processToolCalls a calls).2 = none → calls[j]? = some tc →
      ∃ content, (processToolCalls a calls).1[j]? = some (Message.tool content tc.id) := by
  intro calls
  induction calls with
  | nil => intro j tc _ hj; simp at hj
  | cons tc0 rest ih =>
    intro j tc h hj
    unfold processToolCalls at h ⊢
    cases htc : toolContent a tc0 with
    | error e => rw [htc] at h; simp at h
    | ok content =>
      rw [htc] at h
      simp at h
      cases j with
      | zero =>
        simp at hj
        subst hj
        exact ⟨content, by simp⟩
      | succ j =>
        simp only [List.getElem?_cons_succ] at hj
        obtain ⟨content1, hc1⟩ := ih j tc h hj
        exact ⟨content1, by simpa using hc1⟩

theorem processToolCallsS_eq (a : Agent) (iter : Nat) (calls : List apiToolCall) :
    (processToolCallsS a iter calls).2.1 = (processToolCalls a calls).1 ∧
    (processToolCallsS a iter calls).2.2 = (processToolCalls a calls).2 := by
  induction calls with
  | nil => simp [processToolCallsS, processToolCalls]
  | cons tc rest ih =>
    unfold processToolCallsS processToolCalls toolContent
    cases hex : a.executeTool tc.function.name tc.function.arguments with
    | error e => simp [hex, ih.1, ih.2, processToolCalls]
    | ok v =>
      cases hm : jsonMarshal v with
      | error e => simp [hex, hm]
      | ok content => simp [hex, hm, ih.1, ih.2, processToolCalls]

/-- Premise used by the iteration-limit claims: the scripted response is a
successful one whose first choice does not finish with `"stop"`, and whose
tool branch (when taken) does not abort the run through a marshalling
failure. -/
def respNonStop (a : Agent) (r : Except String apiResponse) : Bool :=
  match r with
  | .error _ => false
  | .ok resp =>
    match resp.choices with
    | [] => false
    | choice :: _ =>
      (choice.finish_reason != "stop") &&
        ((choice.finish_reason != "tool_calls") ||
          (processToolCalls a choice.message.tool_calls).2.isNone)

theorem respNonStop_spec (a : Agent) (r : Except String apiResponse)
    (h : respNonStop a r = true) :
    ∃ resp choice rest, r = .ok resp ∧ resp.choices = choice :: rest ∧
      choice.finish_reason ≠ "stop" ∧
      (choice.finish_reason = "tool_calls" →
        (processToolCalls a choice.message.tool_calls).2 = none) := by
  cases r with
  | error e => simp [respNonStop] at h
  | ok resp =>
    cases hc : resp.choices with
    | nil => rw [respNonStop, hc] at h; simp at h
    | cons choice rest =>
      rw [respNonStop, hc] at h
      simp only [Bool.and_eq_true, bne_iff_ne, ne_eq, Bool.or_eq_true,
        Option.isNone_iff_eq_none] at h
      exact ⟨resp, choice, rest, rfl, hc, h.1, fun htc => h.2.resolve_left (by simp [htc])⟩

/-! ### One-iteration unfolding lemmas for the `Run` loop -/

theorem runLoop_step_limit {a : Agent} {client : Nat → Except String apiResponse}
    {messages : List Message} {loopCount : Nat} {u : Usage} {c : Nat}
    (h : loopCount + 1 > a.config.maxLoops) :
    runLoop a client messages loopCount u c =
      ⟨.limitExceeded a.config.maxLoops, messages, c⟩ := by
  rw [runLoop]; simp [h]

theorem runLoop_step_apiError {a : Agent} {client : Nat → Except String apiResponse}
    {messages : List Message} {loopCount : Nat} {u : Usage} {c : Nat} {e : String}
    (hguard : loopCount + 1 ≤ a.config.maxLoops) (hclient : client c = .error e) :
    runLoop a client messages loopCount u c =
      ⟨.apiError ("API call error: " ++ e), messages, c + 1⟩ := by
  rw [runLoop]; simp [Nat.not_lt.mpr hguard, hclient]

theorem runLoop_step_panic {a : Agent} {client : Nat → Except String apiResponse}
    {messages : List Message} {loopCount : Nat} {u : Usage} {c : Nat} {resp : apiResponse}
    (hguard : loopCount + 1 ≤ a.config.maxLoops) (hclient : client c = .ok resp)
    (hchoices : resp.choices = []) :
    runLoop a client messages loopCount u c = ⟨.panicEmptyChoices, messages, c + 1⟩ := by
  rw [runLoop]; simp [Nat.not_lt.mpr hguard, hclient, hchoices]

theorem runLoop_step_stop {a : Agent} {client : Nat → Except String apiResponse}
    {messages : List Message} {loopCount : Nat} {u : Usage} {c : Nat}
    {resp : apiResponse} {choice : apiChoice} {rest : List apiChoice}
    (hguard : loopCount + 1 ≤ a.config.maxLoops) (hclient : client c = .ok resp)
    (hchoices : resp.choices = choice :: rest) (hreason : choice.finish_reason = "stop") :
    runLoop a client messages loopCount u c =
      ⟨.ok ⟨choice.message.content, u + resp.usage, choice.finish_reason, loopCount + 1⟩,
        messages, c + 1⟩ := by
  rw [runLoop]; simp [Nat.not_lt.mpr hguard, hclient, hchoices, hreason]

theorem runLoop_step_toolcalls {a : Agent} {client : Nat → Except String apiResponse}
    {messages : List Message} {loopCount : Nat} {u : Usage} {c : Nat}
    {resp : apiResponse} {choice : apiChoice} {rest : List apiChoice}
    (hguard : loopCount + 1 ≤ a.config.maxLoops) (hclient : client c = .ok resp)
    (hchoices : resp.choices = choice :: rest) (hreason : choice.finish_reason = "tool_calls")
    (hfatal : (processToolCalls a choice.message.tool_calls).2 = none) :
    runLoop a client messages loopCount u c =
      runLoop a client
        (messages ++ [Message.assistantToolCalls choice.message.tool_calls]
          ++ (processToolCalls a choice.message.tool_calls).1)
        (loopCount + 1) (u + resp.usage) (c + 1) := by
  rw [runLoop]; simp [Nat.not_lt.mpr hguard, hclient, hchoices, hreason, hfatal]

theorem runLoop_step_toolcalls_fatal {a : Agent} {client : Nat → Except String apiResponse}
    {messages : List Message} {loopCount : Nat} {u : Usage} {c : Nat}
    {resp : apiResponse} {choice : apiChoice} {rest : List apiChoice} {e : String}
    (hguard : loopCount + 1 ≤ a.config.maxLoops) (hclient : client c = .ok resp)
    (hchoices : resp.choices = choice :: rest) (hreason : choice.finish_reason = "tool_calls")
    (hfatal : (processToolCalls a choice.message.tool_calls).2 = some e) :
    runLoop a client messages loopCount u c =
      ⟨.encodingError e,
        messages ++ [Message.assistantToolCalls choice.message.tool_calls]
          ++ (processToolCalls a choice.message.tool_calls).1, c + 1⟩ := by
  rw [runLoop]; simp [Nat.not_lt.mpr hguard, hclient, hchoices, hreason, hfatal]

theorem runLoop_step_other {a : Agent} {client : Nat → Except String apiResponse}
    {messages : List Message} {loopCount : Nat} {u : Usage} {c : Nat}
    {resp : apiResponse} {choice : apiChoice} {rest : List apiChoice}
    (hguard : loopCount + 1 ≤ a.config.maxLoops) (hclient : client c = .ok resp)
    (hchoices : resp.choices = choice :: rest) (hstop : choice.finish_reason ≠ "stop")
    (htc : choice.finish_reason ≠ "tool_calls") :
    runLoop a client messages loopCount u c =
      runLoop a client messages (loopCount + 1) (u + resp.usage) (c + 1) := by
  rw [runLoop]; simp [Nat.not_lt.mpr hguard, hclient, hchoices, hstop, htc]

/-! ### Global lemmas about the `Run` loop, by induction on the remaining budget -/

theorem runLoop_nonstop_limit (a : Agent) (client : Nat → Except String apiResponse) :
    ∀ (k loopCount c : Nat) (u : Usage) (messages : List Message),
      a.config.maxLoops - loopCount = k →
      (∀ i, c ≤ i → i < c + k → respNonStop a (client i) = true) →
      (runLoop a client messages loopCount u c).outcome = .limitExceeded a.config.maxLoops ∧
      (runLoop a client messages loopCount u c).apiCalls = c + k := by
  intro k
  induction k with
  | zero =>
    intro loopCount c u messages hk _
    rw [runLoop_step_limit (by omega)]
    simp
  | succ k ih =>
    intro loopCount c u messages hk hresp
    have hguard : loopCount + 1 ≤ a.config.maxLoops := by omega
    obtain ⟨resp, choice, rest, hcl, hch, hstop, hfat⟩ :=
      respNonStop_spec a (client c) (hresp c (le_refl c) (by omega))
    by_cases htc : choice.finish_reason = "tool_calls"
    · rw [runLoop_step_toolcalls hguard hcl hch htc (hfat htc)]
      have := ih (loopCount + 1) (c + 1) (u + resp.usage)
        (messages ++ [Message.assistantToolCalls choice.message.tool_calls]
          ++ (processToolCalls a choice.message.tool_calls).1) (by omega)
        (fun i h1 h2 => hresp i (by omega) (by omega))
      exact ⟨this.1, by rw [this.2]; omega⟩
    · rw [runLoop_step_other hguard hcl hch hstop htc]
      have := ih (loopCount + 1) (c + 1) (u + resp.usage) messages (by omega)
        (fun i h1 h2 => hresp i (by omega) (by omega))
      exact ⟨this.1, by rw [this.2]; omega⟩

theorem runLoop_limit_calls (a : Agent) (client : Nat → Except String apiResponse) :
    ∀ (k loopCount c : Nat) (u : Usage) (messages : List Message) (m : Nat),
      a.config.maxLoops - loopCount = k → loopCount ≤ a.config.maxLoops →
      (runLoop a client messages loopCount u c).outcome = .limitExceeded m →
      (runLoop a client messages loopCount u c).apiCalls = c + k := by
  intro k
  induction k with
  | zero =>
    intro loopCount c u messages m hk hle _
    rw [runLoop_step_limit (by omega)]
    simp
  | succ k ih =>
    intro loopCount c u messages m hk hle hout
    have hguard : loopCount + 1 ≤ a.config.maxLoops := by omega
    cases hcl : client c with
    | error e => rw [runLoop_step_apiError hguard hcl] at hout; simp at hout
    | ok resp =>
      cases hch : resp.choices with
      | nil => rw [runLoop_step_panic hguard hcl hch] at hout; simp at hout
      | cons choice rest =>
        by_cases htc : choice.finish_reason = "tool_calls"
        · cases hfat : (processToolCalls a choice.message.tool_calls).2 with
          | some e =>
            rw [runLoop_step_toolcalls_fatal hguard hcl hch htc hfat] at hout
            simp at hout
          | none =>
            rw [runLoop_step_toolcalls hguard hcl hch htc hfat] at hout ⊢
            rw [ih (loopCount + 1) (c + 1) _ _ m (by omega) (by omega) hout]
            omega
        · by_cases hstop : choice.finish_reason = "stop"
          · rw [runLoop_step_stop hguard hcl hch hstop] at hout; simp at hout
          · rw [runLoop_step_other hguard hcl hch hstop htc] at hout ⊢
            rw [ih (loopCount + 1) (c + 1) _ _ m (by omega) (by omega) hout]
            omega

/-- Usage reported by one scripted client call (zero for a failing call,
which aborts the loop before accumulation). -/
def usageOf : Except String apiResponse → Usage
  | .error _ => ⟨0, 0, 0⟩
  | .ok resp => resp.usage

/-- Sum of the usage counters reported by calls `start, …, start + n - 1` of
the client script. -/
def sumUsageFrom (client : Nat → Except String apiResponse) (start : Nat) : Nat → Usage
  | 0 => ⟨0, 0, 0⟩
  | n + 1 => usageOf (client start) + sumUsageFrom client (start + 1) n

theorem runLoop_ok_usage (a : Agent) (client : Nat → Except String apiResponse) :
    ∀ (k loopCount c : Nat) (u : Usage) (messages : List Message) (resp : Response),
      a.config.maxLoops - loopCount = k →
      (runLoop a client messages loopCount u c).outcome = .ok resp →
      ∃ n, resp.loopCount = loopCount + n ∧
        (runLoop a client messages loopCount u c).apiCalls = c + n ∧
        resp.usage = u + sumUsageFrom client c n := by
  intro k
  induction k with
  | zero =>
    intro loopCount c u messages resp hk hout
    rw [runLoop_step_limit (by omega)] at hout
    simp at hout
  | succ k ih =>
    intro loopCount c u messages resp hk hout
    have hguard : loopCount + 1 ≤ a.config.maxLoops := by omega
    cases hcl : client c with
    | error e => rw [runLoop_step_apiError hguard hcl] at hout; simp at hout
    | ok r =>
      cases hch : r.choices with
      | nil => rw [runLoop_step_panic hguard hcl hch] at hout; simp at hout
      | cons choice rest =>
        by_cases htc : choice.finish_reason = "tool_calls"
        · cases hfat : (processToolCalls a choice.message.tool_calls).2 with
          | some e =>
            rw [runLoop_step_toolcalls_fatal hguard hcl hch htc hfat] at hout
            simp at hout
          | none =>
            rw [runLoop_step_toolcalls hguard hcl hch htc hfat] at hout ⊢
            obtain ⟨n, h1, h2, h3⟩ := ih (loopCount + 1) (c + 1) _ _ resp (by omega) hout
            refine ⟨n + 1, by omega, by rw [h2]; omega, ?_⟩
            rw [h3, sumUsageFrom, Usage.add_assoc]
            simp [usageOf, hcl]
        · by_cases hstop : choice.finish_reason = "stop"
          · rw [runLoop_step_stop hguard hcl hch hstop] at hout ⊢
            simp at hout
            refine ⟨1, ?_, by simp, ?_⟩
            · rw [← hout]
            · rw [← hout]
              simp [sumUsageFrom, usageOf, hcl, Usage.add_zero]
          · rw [runLoop_step_other hguard hcl hch hstop htc] at hout ⊢
            obtain ⟨n, h1, h2, h3⟩ := ih (loopCount + 1) (c + 1) _ _ resp (by omega) hout
            refine ⟨n + 1, by omega, by rw [h2]; omega, ?_⟩
            rw [h3, sumUsageFrom, Usage.add_assoc]
            simp [usageOf, hcl]

theorem runLoop_no_noResponse (a : Agent) (client : Nat → Except String apiResponse) :
    ∀ (k loopCount c : Nat) (u : Usage) (messages : List Message),
      a.config.maxLoops - loopCount = k →
      (runLoop a client messages loopCount u c).outcome ≠ .noResponse := by
  intro k
  induction k with
  | zero =>
    intro loopCount c u messages hk
    rw [runLoop_step_limit (by omega)]
    simp
  | succ k ih =>
    intro loopCount c u messages hk
    have hguard : loopCount + 1 ≤ a.config.maxLoops := by omega
    cases hcl : client c with
    | error e => rw [runLoop_step_apiError hguard hcl]; simp
    | ok r =>
      cases hch : r.choices with
      | nil => rw [runLoop_step_panic hguard hcl hch]; simp
      | cons choice rest =>
        by_cases htc : choice.finish_reason = "tool_calls"
        · cases hfat : (processToolCalls a choice.message.tool_calls).2 with
          | some e => rw [runLoop_step_toolcalls_fatal hguard hcl hch htc hfat]; simp
          | none =>
            rw [runLoop_step_toolcalls hguard hcl hch htc hfat]
            exact ih (loopCount + 1) (c + 1) _ _ (by omega)
        · by_cases hstop : choice.finish_reason = "stop"
          · rw [runLoop_step_stop hguard hcl hch hstop]; simp
          · rw [runLoop_step_other hguard hcl hch hstop htc]
            exact ih (loopCount + 1) (c + 1) _ _ (by omega)

theorem runLoop_ok_finish_stop (a : Agent) (client : Nat → Except String apiResponse) :
    ∀ (k loopCount c : Nat) (u : Usage) (messages : List Message) (resp : Response),
      a.config.maxLoops - loopCount = k →
      (runLoop a client messages loopCount u c).outcome = .ok resp →
      resp.finishReason = "stop" := by
  intro k
  induction k with
  | zero =>
    intro loopCount c u messages resp hk hout
    rw [runLoop_step_limit (by omega)] at hout
    simp at hout
  | succ k ih =>
    intro loopCount c u messages resp hk hout
    have hguard : loopCount + 1 ≤ a.config.maxLoops := by omega
    cases hcl : client c with
    | error e => rw [runLoop_step_apiError hguard hcl] at hout; simp at hout
    | ok r =>
      cases hch : r.choices with
      | nil => rw [runLoop_step_panic hguard hcl hch] at hout; simp at hout
      | cons choice rest =>
        by_cases htc : choice.finish_reason = "tool_calls"
        · cases hfat : (processToolCalls a choice.message.tool_calls).2 with
          | some e =>
            rw [runLoop_step_toolcalls_fatal hguard hcl hch htc hfat] at hout
            simp at hout
          | none =>
            rw [runLoop_step_toolcalls hguard hcl hch htc hfat] at hout
            exact ih (loopCount + 1) (c + 1) _ _ resp (by omega) hout
        · by_cases hstop : choice.finish_reason = "stop"
          · rw [runLoop_step_stop hguard hcl hch hstop] at hout
            simp at hout
            rw [← hout]
            simp [hstop]
          · rw [runLoop_step_other hguard hcl hch hstop htc] at hout
            exact ih (loopCount + 1) (c + 1) _ _ resp (by omega) hout

/-! ### Global lemmas about the session turn loop -/

theorem runTurnLoop_nonstop_limit (a : Agent) (client : Nat → Except String apiResponse) :
    ∀ (k lc c : Nat) (s : Session) (messages : List Message),
      a.config.maxLoops - lc = k → lc ≤ a.config.maxLoops →
      (∀ i, c ≤ i → i < c + k → respNonStop a (client i) = true) →
      (runTurnLoop a client s messages lc c).2.1 = .limitExceeded ∧
      (runTurnLoop a client s messages lc c).2.2 = c + k ∧
      (runTurnLoop a client s messages lc c).1.loopCount = a.config.maxLoops + 1 := by
  intro k
  induction k with
  | zero =>
    intro lc c s messages hk hle _
    have hg : lc + 1 > a.config.maxLoops := by omega
    rw [runTurnLoop]
    simp [hg, Session.sendEvent_loopCount]
    omega
  | succ k ih =>
    intro lc c s messages hk hle hresp
    have hguard : ¬ (lc + 1 > a.config.maxLoops) := by omega
    obtain ⟨resp, choice, rest, hcl, hch, hstop, hfat⟩ :=
      respNonStop_spec a (client c) (hresp c le_rfl (by omega))
    rw [runTurnLoop]
    by_cases htc : choice.finish_reason = "tool_calls"
    · have hfatS : (processToolCallsS a (lc + 1) choice.message.tool_calls).2.2 = none := by
        rw [(processToolCallsS_eq a (lc + 1) choice.message.tool_calls).2]
        exact hfat htc
      simp only [hguard, dite_false, hcl, hch, htc, if_true, hfatS]
      rw [show c + (k + 1) = c + 1 + k from by omega]
      refine ⟨?_, ?_, ?_⟩
      · exact (ih _ _ _ _ (by omega) (by omega)
          (fun i h1 h2 => hresp i (by omega) (by omega))).1
      · exact (ih _ _ _ _ (by omega) (by omega)
          (fun i h1 h2 => hresp i (by omega) (by omega))).2.1
      · exact (ih _ _ _ _ (by omega) (by omega)
          (fun i h1 h2 => hresp i (by omega) (by omega))).2.2
    · simp only [hguard, dite_false, hcl, hch, htc, if_false, hstop]
      rw [show c + (k + 1) = c + 1 + k from by omega]
      refine ⟨?_, ?_, ?_⟩
      · exact (ih _ _ _ _ (by omega) (by omega)
          (fun i h1 h2 => hresp i (by omega) (by omega))).1
      · exact (ih _ _ _ _ (by omega) (by omega)
          (fun i h1 h2 => hresp i (by omega) (by omega))).2.1
      · exact (ih _ _ _ _ (by omega) (by omega)
          (fun i h1 h2 => hresp i (by omega) (by omega))).2.2

theorem processToolCalls_append_fatal (a : Agent) :
    ∀ (pre : List apiToolCall) (toolCall : apiToolCall) (rest : List apiToolCall) (e : String),
      (processToolCalls a pre).2 = none → toolContent a toolCall = .error e →
      processToolCalls a (pre ++ toolCall :: rest) = ((processToolCalls a pre).1, some e) := by
  intro pre
  induction pre with
  | nil =>
    intro toolCall rest e _ he
    simp only [List.nil_append]
    unfold processToolCalls
    rw [he]
  | cons p pre ih =>
    intro toolCall rest e h he
    rw [List.cons_append]
    simp only [processToolCalls] at h ⊢
    cases hp : toolContent a p with
    | error e0 => rw [hp] at h; simp at h
    | ok content =>
      rw [hp] at h
      simp at h
      simp [ih toolCall rest e h he]

/-! ### The claims -/

/-- C1: for a run with configured ceiling `K ≥ 1`, when every scripted
client response before the ceiling is a successful non-`"stop"` response
(and its tool branch, when taken, does not abort through a marshalling
failure), `Run` ends with the iteration-limit condition after exactly `K`
client calls — the failure happens exactly when the `(K+1)`-th iteration
would begin, before any `(K+1)`-th client call; and any run that ends with
the iteration-limit condition made exactly `K` client calls, so a loop that
exits within `K` iterations never sees this failure. -/
theorem claim_C1 (a : Agent) (client : Nat → Except String apiResponse)
    (prompt : String) (K : Nat) (hK : a.config.maxLoops = K) (hK1 : 1 ≤ K) :
    ((∀ i, i < K → respNonStop a (client i) = true) →
      (a.Run client prompt).outcome = .limitExceeded K ∧
      (a.Run client prompt).apiCalls = K)
    ∧ (∀ m, (a.Run client prompt).outcome = .limitExceeded m →
      (a.Run client prompt).apiCalls = K) := by
  constructor
  · intro h
    rw [Agent.Run]
    have := runLoop_nonstop_limit a client K 0 0 ⟨0, 0, 0⟩
      [Message.system a.config.systemPrompt, Message.user prompt]
      (by omega) (fun i _ h2 => h i (by omega))
    rw [← hK]
    exact ⟨this.1, by rw [this.2, hK]; omega⟩
  · intro m hm
    rw [Agent.Run] at hm ⊢
    have := runLoop_limit_calls a client K 0 0 ⟨0, 0, 0⟩
      [Message.system a.config.systemPrompt, Message.user prompt] m
      (by omega) (by omega) hm
    simpa using this

/-- C2: in an iteration whose response finishes with `"tool_calls"` and
carries `N` requests (and whose tool processing does not abort), the loop
appends one assistant message carrying the full ordered request list
followed by the produced tool-role messages and continues; exactly `N`
tool-role messages are produced, and the `j`-th of them answers the `j`-th
request, tagged with that request's call identifier. -/
theorem claim_C2 (a : Agent) (client : Nat → Except String apiResponse)
    (messages : List Message) (loopCount : Nat) (u : Usage) (c : Nat)
    (resp : apiResponse) (choice : apiChoice) (rest : List apiChoice)
    (hguard : loopCount + 1 ≤ a.config.maxLoops) (hclient : client c = .ok resp)
    (hchoices : resp.choices = choice :: rest)
    (hreason : choice.finish_reason = "tool_calls")
    (hfatal : (processToolCalls a choice.message.tool_calls).2 = none) :
    runLoop a client messages loopCount u c =
      runLoop a client
        (messages ++ [Message.assistantToolCalls choice.message.tool_calls]
          ++ (processToolCalls a choice.message.tool_calls).1)
        (loopCount + 1) (u + resp.usage) (c + 1)
    ∧ (processToolCalls a choice.message.tool_calls).1.length
        = choice.message.tool_calls.length
    ∧ ∀ (j : Nat) (tc : apiToolCall), choice.message.tool_calls[j]? = some tc →
        ∃ content, (processToolCalls a choice.message.tool_calls).1[j]?
          = some (Message.tool content tc.id) :=
  ⟨runLoop_step_toolcalls hguard hclient hchoices hreason hfatal,
   processToolCalls_length a _ hfatal,
   fun j tc hj => processToolCalls_get a _ j tc hfatal hj⟩

/-- C3: a tool-call request whose name is not registered fails inside
`executeTool` with the tool-not-found error; any handler-level error
(including that one) is folded into the textual payload
`{"error": "<message>"}`, which is appended as that call's tool-role result
message while processing continues with the remaining calls and no fatal
condition is raised for it; and an iteration whose tool processing raises
no fatal condition continues the loop, so the next model call still
proceeds. -/
theorem claim_C3 (a : Agent) :
    (∀ name args, lookupTool a.tools name = none →
      a.executeTool name args = .error ("tool not found: " ++ name))
    ∧ (∀ (toolCall : apiToolCall) (rest : List apiToolCall) (e : String),
        a.executeTool toolCall.function.name toolCall.function.arguments = .error e →
        processToolCalls a (toolCall :: rest) =
          (Message.tool ("\x7b\"error\": \"" ++ e ++ "\"\x7d") toolCall.id
              :: (processToolCalls a rest).1,
            (processToolCalls a rest).2))
    ∧ (∀ (client : Nat → Except String apiResponse) messages loopCount u c
        resp choice rest,
        loopCount + 1 ≤ a.config.maxLoops → client c = Except.ok resp →
        resp.choices = choice :: rest → choice.finish_reason = "tool_calls" →
        (processToolCalls a choice.message.tool_calls).2 = none →
        runLoop a client messages loopCount u c =
          runLoop a client
            (messages ++ [Message.assistantToolCalls choice.message.tool_calls]
              ++ (processToolCalls a choice.message.tool_calls).1)
            (loopCount + 1) (u + resp.usage) (c + 1)) := by
  refine ⟨?_, ?_, ?_⟩
  · intro name args h
    rw [Agent.executeTool, h]
  · intro toolCall rest e he
    have hc : toolContent a toolCall = .ok ("\x7b\"error\": \"" ++ e ++ "\"\x7d") := by
      rw [toolContent, he]
    simp only [processToolCalls, hc]
  · intro client messages loopCount u c resp choice rest hg hcl hch hr hf
    exact runLoop_step_toolcalls hg hcl hch hr hf

/-- C4: when a scripted response within the budget has an empty choice
list, the loop body's unguarded read of the first choice's finish reason
has no defined value — the run ends in the modelled panic; and the
post-loop "no response from API" branch of `Run` is unreachable: no run
ever produces that outcome, because exiting the loop requires the
first-choice access of the final iteration to have succeeded. -/
theorem claim_C4 (a : Agent) (client : Nat → Except String apiResponse) :
    (∀ messages loopCount u c resp,
      loopCount + 1 ≤ a.config.maxLoops → client c = .ok resp → resp.choices = [] →
      runLoop a client messages loopCount u c = ⟨.panicEmptyChoices, messages, c + 1⟩)
    ∧ (∀ prompt, (a.Run client prompt).outcome ≠ .noResponse) :=
  ⟨fun _ _ _ _ _ hg hc hch => runLoop_step_panic hg hc hch,
   fun prompt => by
     rw [Agent.Run]
     exact runLoop_no_noResponse a client a.config.maxLoops 0 0 ⟨0, 0, 0⟩ _ (by simp)⟩

/-- C5: a run that terminates with a result carries usage counters equal to
the exact sum of the per-call counters reported by the client script over
all iterations of the run (accumulated every iteration regardless of the
finish indicator, never reset). -/
theorem claim_C5 (a : Agent) (client : Nat → Except String apiResponse)
    (prompt : String) (resp : Response)
    (h : (a.Run client prompt).outcome = .ok resp) :
    resp.usage = sumUsageFrom client 0 resp.loopCount := by
  rw [Agent.Run] at h
  obtain ⟨n, h1, h2, h3⟩ := runLoop_ok_usage a client a.config.maxLoops 0 0 ⟨0, 0, 0⟩
    [Message.system a.config.systemPrompt, Message.user prompt] resp (by simp) h
  rw [h3, Usage.zero_add, h1]
  simp

/-- C6: an iteration whose response finishes with a reason that is neither
`"stop"` nor `"tool_calls"` (for example `"length"` or the empty string)
continues the loop with the message list unchanged and no tool executed,
exactly like the tool-free non-stop case; and `"stop"` is the only reason
that exits the loop normally — every successful run's final finish reason
is `"stop"`. -/
theorem claim_C6 (a : Agent) (client : Nat → Except String apiResponse) :
    (∀ messages loopCount u c resp choice rest,
      loopCount + 1 ≤ a.config.maxLoops → client c = .ok resp →
      resp.choices = choice :: rest → choice.finish_reason ≠ "stop" →
      choice.finish_reason ≠ "tool_calls" →
      runLoop a client messages loopCount u c =
        runLoop a client messages (loopCount + 1) (u + resp.usage) (c + 1))
    ∧ (∀ prompt resp, (a.Run client prompt).outcome = .ok resp →
        resp.finishReason = "stop") :=
  ⟨fun _ _ _ _ _ _ _ hg hc hch hs ht => runLoop_step_other hg hc hch hs ht,
   fun prompt resp h => by
     rw [Agent.Run] at h
     exact runLoop_ok_finish_stop a client a.config.maxLoops 0 0 ⟨0, 0, 0⟩
       [Message.system a.config.systemPrompt, Message.user prompt] resp (by simp) h⟩

/-- C10: when a handler succeeds but its result value cannot be encoded,
the per-call content computation fails fatally with the encoding-error
message; in a request list this aborts processing at the failing call —
the messages of earlier successful calls are kept, and no tool-role
message is appended for the failing call or any later one; the one-shot
run then returns the encoding error, and a session turn ends with the same
terminal error outcome — an exception to the rule that tool-level failures
never abort the loop. -/
theorem claim_C10 (a : Agent) :
    (∀ (toolCall : apiToolCall) (v : GoValue) (e : String),
      a.executeTool toolCall.function.name toolCall.function.arguments = .ok v →
      jsonMarshal v = .error e →
      toolContent a toolCall = .error ("error encoding tool result: " ++ e))
    ∧ (∀ (pre : List apiToolCall) (toolCall : apiToolCall) (rest : List apiToolCall)
        (e : String),
        (processToolCalls a pre).2 = none → toolContent a toolCall = .error e →
        processToolCalls a (pre ++ toolCall :: rest) = ((processToolCalls a pre).1, some e))
    ∧ (∀ (client : Nat → Except String apiResponse) messages loopCount u c
        resp choice rest e,
        loopCount + 1 ≤ a.config.maxLoops → client c = .ok resp →
        resp.choices = choice :: rest → choice.finish_reason = "tool_calls" →
        (processToolCalls a choice.message.tool_calls).2 = some e →
        runLoop a client messages loopCount u c =
          ⟨.encodingError e,
            messages ++ [Message.assistantToolCalls choice.message.tool_calls]
              ++ (processToolCalls a choice.message.tool_calls).1, c + 1⟩)
    ∧ (∀ (client : Nat → Except String apiResponse) (s : Session) messages
        loopCount c resp choice rest e,
        loopCount + 1 ≤ a.config.maxLoops → client c = .ok resp →
        resp.choices = choice :: rest → choice.finish_reason = "tool_calls" →
        (processToolCalls a choice.message.tool_calls).2 = some e →
        (runTurnLoop a client s messages loopCount c).2.1 = .encodingError e) := by
  refine ⟨?_, ?_, ?_, ?_⟩
  · intro toolCall v e hok hm
    simp [toolContent, hok, hm]
  · exact processToolCalls_append_fatal a
  · intro client messages loopCount u c resp choice rest e hg hcl hch hr hf
    exact runLoop_step_toolcalls_fatal hg hcl hch hr hf
  · intro client s messages loopCount c resp choice rest e hg hcl hch hr hf
    have hfS : (processToolCallsS a (loopCount + 1) choice.message.tool_calls).2.2 = some e := by
      rw [(processToolCallsS_eq a (loopCount + 1) choice.message.tool_calls).2]
      exact hf
    rw [runTurnLoop]
    simp only [show ¬ (loopCount + 1 > a.config.maxLoops) from by omega, dite_false,
      hcl, hch, hr, if_true, hfS]

/-- C7: the session iteration counter is shared across all turns and never
reset: a turn that starts with the session counter already at `L` (carried
over from earlier turns) under a ceiling `M ≥ L` fails with the
iteration-limit condition after only `M - L` client calls when the script
never stops — even though `M - L` is fewer than the ceiling whenever
`L > 0` — and the failing turn leaves the counter at `M + 1`, not reset. -/
theorem claim_C7 (client : Nat → Except String apiResponse) (s : Session)
    (L M : Nat) (hM : s.agent.config.maxLoops = M) (hL : s.loopCount = L)
    (hLM : L ≤ M) (hresp : ∀ i, respNonStop s.agent (client i) = true) :
    (s.runTurn client).2.1 = .limitExceeded ∧
    (s.runTurn client).2.2 = M - L ∧
    (s.runTurn client).1.loopCount = M + 1 := by
  rw [Session.runTurn, hL]
  have := runTurnLoop_nonstop_limit s.agent client (M - L) L 0 s s.messages
    (by omega) (by omega) (fun i _ _ => hresp i)
  exact ⟨this.1, by rw [this.2.1]; omega, by rw [this.2.2, hM]⟩

/-- C9: `Close` is idempotent — on a session with open channels it closes
normally (no modelled panic), and a second `Close` is a no-op returning the
same session without panic; after `Close`, every `Send` fails with the
session-closed error (so no user message is appended and no turn starts),
and every `SendInput` returns the closed error rather than blocking. -/
theorem claim_C9 (s : Session) (hclosed : s.closed = false)
    (hev : s.eventsClosed = false) (hin : s.inputClosed = false) :
    ∃ s1, s.Close = some s1 ∧ s1.Close = some s1 ∧
      (∀ message, s1.Send message = .error "session is closed") ∧
      (∀ readerReady, s1.SendInput readerReady = .errClosed) := by
  refine ⟨{ s with closed := true, cancelled := true, eventsClosed := true, inputClosed := true }, ?_, ?_, ?_, ?_⟩
  · rw [Session.Close]
    simp [hclosed, hev, hin]
  · rw [Session.Close]
    simp
  · intro message
    rw [Session.Send]
    simp
  · intro readerReady
    rw [Session.SendInput]
    simp

/-- The `"echo"` tool of the C8 scenario: returns its raw input unchanged
(its JSON encoding is the argument string itself). -/
def echoTool : Tool := ⟨"echo", fun args => .ok (.jsonable args)⟩

/-- Agent of the C8 scenario: default-like configuration with the single
tool `"echo"` registered. -/
def echoAgent : Agent :=
  Agent.RegisterTool ⟨⟨"key", "url", "model", "sys", 20⟩, []⟩ echoTool

/-- Client script of the C8 scenario: one `"echo"` tool call on each of the
first three calls, then a `"stop"` response with content `"done"`. -/
def echoClient : Nat → Except String apiResponse := fun n =>
  if n = 0 then .ok ⟨[⟨⟨"", [⟨"call_1", ⟨"echo", "\"one\""⟩⟩]⟩, "tool_calls"⟩], ⟨1, 2, 3⟩⟩
  else if n = 1 then .ok ⟨[⟨⟨"", [⟨"call_2", ⟨"echo", "\"two\""⟩⟩]⟩, "tool_calls"⟩], ⟨1, 2, 3⟩⟩
  else if n = 2 then .ok ⟨[⟨⟨"", [⟨"call_3", ⟨"echo", "\"three\""⟩⟩]⟩, "tool_calls"⟩], ⟨1, 2, 3⟩⟩
  else .ok ⟨[⟨⟨"done", []⟩, "stop"⟩], ⟨5, 7, 9⟩⟩

/-- C8: in the echo scenario (three tool-calling iterations, then a stop),
the one-shot run returns `LoopCount = 4` and `Content` equal to the fourth
response's text with usage summed over all four iterations (its local
message list holds the system/user messages and the three request/result
pairs); and the same scenario driven through a session (`Send` then the
background turn) leaves a message history of length 9: system, user, three
assistant/tool pairs, and the final assistant message. -/
theorem claim_C8 :
    echoAgent.Run echoClient "hi" =
      ⟨.ok ⟨"done", ⟨8, 13, 18⟩, "stop", 4⟩,
        [Message.system "sys", Message.user "hi",
         Message.assistantToolCalls [⟨"call_1", ⟨"echo", "\"one\""⟩⟩],
         Message.tool "\"one\"" "call_1",
         Message.assistantToolCalls [⟨"call_2", ⟨"echo", "\"two\""⟩⟩],
         Message.tool "\"two\"" "call_2",
         Message.assistantToolCalls [⟨"call_3", ⟨"echo", "\"three\""⟩⟩],
         Message.tool "\"three\"" "call_3"], 4⟩
    ∧ ((Agent.NewSession echoAgent).Send "hi").map
        (fun s1 => ((s1.runTurn echoClient).1.GetHistory, (s1.runTurn echoClient).2.1))
        = .ok
        ([Message.system "sys", Message.user "hi",
          Message.assistantToolCalls [⟨"call_1", ⟨"echo", "\"one\""⟩⟩],
          Message.tool "\"one\"" "call_1",
          Message.assistantToolCalls [⟨"call_2", ⟨"echo", "\"two\""⟩⟩],
          Message.tool "\"two\"" "call_2",
          Message.assistantToolCalls [⟨"call_3", ⟨"echo", "\"three\""⟩⟩],
          Message.tool "\"three\"" "call_3",
          Message.assistant "done"], .complete "done")
    ∧ ((Agent.NewSession echoAgent).Send "hi").map
        (fun s1 => (s1.runTurn echoClient).1.GetHistory.length) = .ok 9 := by
  refine ⟨?_, ?_, ?_⟩
  · simp [Agent.Run, runLoop, echoAgent, echoClient, echoTool, Agent.RegisterTool,
      insertTool, processToolCalls, toolContent, Agent.executeTool, lookupTool,
      jsonMarshal, Usage.add_def]
  · simp [Agent.NewSession, Session.Send, Session.runTurn, runTurnLoop,
      processToolCallsS, Session.sendEvent, Session.sendEvents, Session.GetHistory,
      Except.map, echoAgent, echoClient, echoTool, Agent.RegisterTool, insertTool,
      Agent.executeTool, lookupTool, jsonMarshal, Usage.add_def]
  · simp [Agent.NewSession, Session.Send, Session.runTurn, runTurnLoop,
      processToolCallsS, Session.sendEvent, Session.sendEvents, Session.GetHistory,
      Except.map, echoAgent, echoClient, echoTool, Agent.RegisterTool, insertTool,
      Agent.executeTool, lookupTool, jsonMarshal, Usage.add_def]

/-! ### Concrete instantiations of the claims -/

/-- Agent with ceiling 2 and no tools, for concrete instantiations. -/
def lenAgent : Agent := ⟨⟨"key", "url", "model", "sys", 2⟩, []⟩

/-- Client script always answering with finish reason `"length"`. -/
def lenClient : Nat → Except String apiResponse :=
  fun _ => .ok ⟨[⟨⟨"", []⟩, "length"⟩], ⟨1, 1, 2⟩⟩

/-- Client script answering `"stop"` with content `"done"` at once. -/
def stopClient : Nat → Except String apiResponse :=
  fun _ => .ok ⟨[⟨⟨"done", []⟩, "stop"⟩], ⟨1, 2, 3⟩⟩

/-- Client script answering with an empty choice list. -/
def emptyClient : Nat → Except String apiResponse :=
  fun _ => .ok ⟨[], ⟨0, 0, 0⟩⟩

/-- Client script answering `"length"` first, then `"stop"`. -/
def mixedClient : Nat → Except String apiResponse := fun n =>
  if n = 0 then .ok ⟨[⟨⟨"", []⟩, "length"⟩], ⟨1, 1, 2⟩⟩
  else .ok ⟨[⟨⟨"done", []⟩, "stop"⟩], ⟨1, 1, 2⟩⟩

/-- A tool-call request naming a tool that is not registered. -/
def missingCall : apiToolCall := ⟨"call_x", ⟨"missing", "\x7b\x7d"⟩⟩

/-- Client script requesting the unregistered tool once, then stopping. -/
def errClient : Nat → Except String apiResponse := fun n =>
  if n = 0 then .ok ⟨[⟨⟨"", [missingCall]⟩, "tool_calls"⟩], ⟨1, 1, 2⟩⟩
  else .ok ⟨[⟨⟨"done", []⟩, "stop"⟩], ⟨1, 1, 2⟩⟩

/-- A tool whose handler succeeds with a value `json.Marshal` rejects. -/
def badTool : Tool := ⟨"bad", fun _ => .ok (.unencodable "json: unsupported type: chan int")⟩

/-- Agent with the unencodable-result tool registered. -/
def badAgent : Agent := Agent.RegisterTool ⟨⟨"key", "url", "model", "sys", 2⟩, []⟩ badTool

/-- A request for the unencodable-result tool. -/
def badCall : apiToolCall := ⟨"call_b", ⟨"bad", "\x7b\x7d"⟩⟩

/-- Client script requesting the unencodable-result tool. -/
def badClient : Nat → Except String apiResponse :=
  fun _ => .ok ⟨[⟨⟨"", [badCall]⟩, "tool_calls"⟩], ⟨1, 1, 2⟩⟩

/-- A session that has already consumed one iteration in an earlier turn. -/
def sess7 : Session := { Agent.NewSession lenAgent with loopCount := 1 }

/-- Witness for C1 at ceiling 2 with an always-`"length"` script. -/
theorem claim_C1_witness :
    (lenAgent.Run lenClient "p").outcome = .limitExceeded 2 ∧
    (lenAgent.Run lenClient "p").apiCalls = 2 :=
  (claim_C1 lenAgent lenClient "p" 2 rfl (by omega)).1 (fun _ _ => rfl)

/-- Witness for C2 on the first echo-scenario iteration. -/
theorem claim_C2_witness :
    (runLoop echoAgent echoClient [] 0 ⟨0, 0, 0⟩ 0 =
      runLoop echoAgent echoClient
        ([] ++ [Message.assistantToolCalls [⟨"call_1", ⟨"echo", "\"one\""⟩⟩]]
          ++ (processToolCalls echoAgent [⟨"call_1", ⟨"echo", "\"one\""⟩⟩]).1)
        (0 + 1) ((⟨0, 0, 0⟩ : Usage) + (⟨1, 2, 3⟩ : Usage)) (0 + 1))
    ∧ (processToolCalls echoAgent [⟨"call_1", ⟨"echo", "\"one\""⟩⟩]).1.length
        = ([⟨"call_1", ⟨"echo", "\"one\""⟩⟩] : List apiToolCall).length
    ∧ ∀ (j : Nat) (tc : apiToolCall),
        ([⟨"call_1", ⟨"echo", "\"one\""⟩⟩] : List apiToolCall)[j]? = some tc →
        ∃ content, (processToolCalls echoAgent [⟨"call_1", ⟨"echo", "\"one\""⟩⟩]).1[j]?
          = some (Message.tool content tc.id) :=
  claim_C2 echoAgent echoClient [] 0 ⟨0, 0, 0⟩ 0
    ⟨[⟨⟨"", [⟨"call_1", ⟨"echo", "\"one\""⟩⟩]⟩, "tool_calls"⟩], ⟨1, 2, 3⟩⟩
    ⟨⟨"", [⟨"call_1", ⟨"echo", "\"one\""⟩⟩]⟩, "tool_calls"⟩ []
    (by decide) rfl rfl rfl rfl

/-- Witness for C3: unregistered tool, folded error payload, continued loop. -/
theorem claim_C3_witness :
    (echoAgent.executeTool "missing" "\x7b\x7d" = .error ("tool not found: " ++ "missing"))
    ∧ (processToolCalls echoAgent (missingCall :: []) =
        (Message.tool ("\x7b\"error\": \"" ++ ("tool not found: " ++ "missing") ++ "\"\x7d")
            missingCall.id :: (processToolCalls echoAgent []).1,
          (processToolCalls echoAgent []).2))
    ∧ (runLoop echoAgent errClient [] 0 ⟨0, 0, 0⟩ 0 =
        runLoop echoAgent errClient
          ([] ++ [Message.assistantToolCalls [missingCall]]
            ++ (processToolCalls echoAgent [missingCall]).1)
          (0 + 1) ((⟨0, 0, 0⟩ : Usage) + (⟨1, 1, 2⟩ : Usage)) (0 + 1)) :=
  ⟨(claim_C3 echoAgent).1 "missing" "\x7b\x7d" rfl,
   (claim_C3 echoAgent).2.1 missingCall [] ("tool not found: " ++ "missing") rfl,
   (claim_C3 echoAgent).2.2 errClient [] 0 ⟨0, 0, 0⟩ 0
     ⟨[⟨⟨"", [missingCall]⟩, "tool_calls"⟩], ⟨1, 1, 2⟩⟩
     ⟨⟨"", [missingCall]⟩, "tool_calls"⟩ [] (by decide) rfl rfl rfl rfl⟩

/-- Witness for C4: an empty choice list panics, and the concrete run never
produces the post-loop outcome. -/
theorem claim_C4_witness :
    (runLoop lenAgent emptyClient [] 0 ⟨0, 0, 0⟩ 0 = ⟨.panicEmptyChoices, [], 0 + 1⟩)
    ∧ (lenAgent.Run emptyClient "p").outcome ≠ .noResponse :=
  ⟨(claim_C4 lenAgent emptyClient).1 [] 0 ⟨0, 0, 0⟩ 0 ⟨[], ⟨0, 0, 0⟩⟩ (by decide) rfl rfl,
   (claim_C4 lenAgent emptyClient).2 "p"⟩

/-- Witness for C5 on a one-iteration stopping run. -/
theorem claim_C5_witness :
    (⟨"done", ⟨1, 2, 3⟩, "stop", 1⟩ : Response).usage =
      sumUsageFrom stopClient 0 (⟨"done", ⟨1, 2, 3⟩, "stop", 1⟩ : Response).loopCount :=
  claim_C5 lenAgent stopClient "p" ⟨"done", ⟨1, 2, 3⟩, "stop", 1⟩
    (by simp [Agent.Run, runLoop, stopClient, lenAgent, Usage.add_def])

/-- Witness for C6: a `"length"` response continues with messages
unchanged, and the mixed run finishes with reason `"stop"`. -/
theorem claim_C6_witness :
    (runLoop lenAgent mixedClient [] 0 ⟨0, 0, 0⟩ 0 =
      runLoop lenAgent mixedClient [] (0 + 1) ((⟨0, 0, 0⟩ : Usage) + (⟨1, 1, 2⟩ : Usage)) (0 + 1))
    ∧ (⟨"done", ⟨2, 2, 4⟩, "stop", 2⟩ : Response).finishReason = "stop" :=
  ⟨(claim_C6 lenAgent mixedClient).1 [] 0 ⟨0, 0, 0⟩ 0
     ⟨[⟨⟨"", []⟩, "length"⟩], ⟨1, 1, 2⟩⟩ ⟨⟨"", []⟩, "length"⟩ []
     (by decide) rfl rfl (by decide) (by decide),
   (claim_C6 lenAgent mixedClient).2 "p" ⟨"done", ⟨2, 2, 4⟩, "stop", 2⟩
     (by simp [Agent.Run, runLoop, mixedClient, lenAgent, Usage.add_def])⟩

/-- Witness for C7: a turn starting with one iteration consumed fails after
a single client call under ceiling 2, leaving the counter at 3. -/
theorem claim_C7_witness :
    (sess7.runTurn lenClient).2.1 = .limitExceeded ∧
    (sess7.runTurn lenClient).2.2 = 2 - 1 ∧
    (sess7.runTurn lenClient).1.loopCount = 2 + 1 :=
  claim_C7 lenClient sess7 1 2 rfl rfl (by omega) (fun _ => rfl)

/-- Witness for C9 on a fresh session. -/
theorem claim_C9_witness :
    ∃ s1, (Agent.NewSession lenAgent).Close = some s1 ∧ s1.Close = some s1 ∧
      (∀ message, s1.Send message = .error "session is closed") ∧
      (∀ readerReady, s1.SendInput readerReady = .errClosed) :=
  claim_C9 (Agent.NewSession lenAgent) rfl rfl rfl

/-- Witness for C10 on the unencodable-result tool. -/
theorem claim_C10_witness :
    (toolContent badAgent badCall =
      .error ("error encoding tool result: " ++ "json: unsupported type: chan int"))
    ∧ (processToolCalls badAgent ([] ++ badCall :: []) =
        ((processToolCalls badAgent []).1,
          some ("error encoding tool result: " ++ "json: unsupported type: chan int")))
    ∧ (runLoop badAgent badClient [] 0 ⟨0, 0, 0⟩ 0 =
        ⟨.encodingError ("error encoding tool result: " ++ "json: unsupported type: chan int"),
          [] ++ [Message.assistantToolCalls [badCall]]
            ++ (processToolCalls badAgent [badCall]).1, 0 + 1⟩)
    ∧ ((runTurnLoop badAgent badClient (Agent.NewSession badAgent) [] 0 0).2.1 =
        .encodingError ("error encoding tool result: " ++ "json: unsupported type: chan int")) :=
  ⟨(claim_C10 badAgent).1 badCall (.unencodable "json: unsupported type: chan int")
     "json: unsupported type: chan int" rfl rfl,
   (claim_C10 badAgent).2.1 [] badCall []
     ("error encoding tool result: " ++ "json: unsupported type: chan int") rfl rfl,
   (claim_C10 badAgent).2.2.1 badClient [] 0 ⟨0, 0, 0⟩ 0
     ⟨[⟨⟨"", [badCall]⟩, "tool_calls"⟩], ⟨1, 1, 2⟩⟩ ⟨⟨"", [badCall]⟩, "tool_calls"⟩ []
     ("error encoding tool result: " ++ "json: unsupported type: chan int")
     (by decide) rfl rfl rfl rfl,
   (claim_C10 badAgent).2.2.2 badClient (Agent.NewSession badAgent) [] 0 0
     ⟨[⟨⟨"", [badCall]⟩, "tool_calls"⟩], ⟨1, 1, 2⟩⟩ ⟨⟨"", [badCall]⟩, "tool_calls"⟩ []
     ("error encoding tool result: " ++ "json: unsupported type: chan int")
     (by decide) rfl rfl rfl rfl⟩
